import Mathlib

/-!
Verification of the AIorgianization daemon core (`src/aio/daemon/`).

We shallowly embed the daemon's data model and operations:
* `VaultCache` from `aio/daemon/cache.py` (refresh_sync, invalidate_task,
  get_task, list_tasks, list_tasks_today, list_tasks_overdue),
* the JSON-RPC protocol and dispatcher from `aio/daemon/protocol.py` and
  `aio/daemon/handlers.py`,
* the length-prefixed socket framing from
  `aio/daemon/transports/unix_socket.py`,
* the RPC-error-to-HTTP-status translation from
  `aio/daemon/transports/http.py`.

Python dicts are modelled as association lists with in-place replacement
(`dset`), first-match lookup (`dget`), key removal (`dpop`), and the
`d[k].append(v)` primitive that raises `KeyError` when the key is absent
(`bucketAppend`, returning `none` on that error).  External collaborators
(the Entity Store / `TaskService`, date parsing, slugging, dashboard
rendering) are out of scope per the spec and appear as abstract function
parameters; fallible calls return `Except Unit`.
-/

namespace Aio

/-- `TaskStatus` from `aio/models/task.py`: the six task status values,
in declaration order. -/
inductive TaskStatus
  | inbox
  | next
  | waiting
  | scheduled
  | someday
  | completed
deriving DecidableEq, Repr

/-- Iteration order of `for status in TaskStatus` in Python: declaration
order of the enum members. -/
def TaskStatus.all : List TaskStatus :=
  [.inbox, .next, .waiting, .scheduled, .someday, .completed]

/-- `TaskStatus.value`: the string value of each enum member. -/
def TaskStatus.value : TaskStatus → String
  | .inbox => "inbox"
  | .next => "next"
  | .waiting => "waiting"
  | .scheduled => "scheduled"
  | .someday => "someday"
  | .completed => "completed"

/-- `TaskStatus(status_str)` in Python: the enum constructor, which raises
`ValueError` (here `none`) for a string that is not a member value. -/
def parseTaskStatus : String → Option TaskStatus
  | "inbox" => some .inbox
  | "next" => some .next
  | "waiting" => some .waiting
  | "scheduled" => some .scheduled
  | "someday" => some .someday
  | "completed" => some .completed
  | _ => none

/-- The `Task` model (`aio/models/task.py`), restricted to the fields the
daemon core reads: `id`, `title`, `status`, `due`, `created`, `project`.
Dates are day ordinals (`Int`), `created` a timestamp ordinal; the
remaining fields are opaque to the cache per the spec. -/
structure Task where
  id : String
  title : String
  status : TaskStatus
  due : Option Int := none
  created : Int := 0
  project : Option String := none
deriving DecidableEq, Repr

/-- `str.upper()` restricted to ASCII (task ids are 4-character
alphanumeric strings per `aio/models/task.py`). -/
def pyUpperChar (c : Char) : Char :=
  if 'a' ≤ c ∧ c ≤ 'z' then Char.ofNat (c.toNat - 32) else c

/-- `s.upper()` on an id string. -/
def pyUpper (s : String) : String := ⟨s.data.map pyUpperChar⟩

/-! ### Python dict primitives (association lists) -/

variable {κ ν : Type}

/-- `d.get(k)` / `d[k]` read: first (and, for a real dict, only) binding. -/
def dget [DecidableEq κ] : List (κ × ν) → κ → Option ν
  | [], _ => none
  | p :: rest, k => if p.1 = k then some p.2 else dget rest k

/-- `d[k] = v`: replace the binding in place if the key exists (keeping its
insertion position), otherwise append a new binding. -/
def dset [DecidableEq κ] : List (κ × ν) → κ → ν → List (κ × ν)
  | [], k, v => [(k, v)]
  | p :: rest, k, v => if p.1 = k then (k, v) :: rest else p :: dset rest k v

/-- `d.pop(k, None)`: remove the binding for `k` (no-op when absent). -/
def dpop [DecidableEq κ] (m : List (κ × ν)) (k : κ) : List (κ × ν) :=
  m.filter fun p => decide ¬(p.1 = k)

/-! ### VaultCache state (`aio/daemon/cache.py`) -/

/-- `self._tasks : dict[str, Task]` (keys are upper-cased ids). -/
abbrev TaskMap := List (String × Task)

/-- `self._tasks_by_status : dict[TaskStatus, list[str]]`. -/
abbrev StatusMap := List (TaskStatus × List String)

/-- The mutable state of a `VaultCache` instance. -/
structure CacheState where
  tasks : TaskMap
  tasksByStatus : StatusMap
  isPopulated : Bool
  taskCount : Nat
deriving DecidableEq, Repr

/-- The cache as constructed by `VaultCache.__init__`: both dicts empty. -/
def CacheState.initial : CacheState :=
  { tasks := [], tasksByStatus := [], isPopulated := false, taskCount := 0 }

/-- `self._tasks_by_status[s].append(i)`: `none` models the `KeyError`
raised when the status key is absent from the dict. -/
def bucketAppend : StatusMap → TaskStatus → String → Option StatusMap
  | [], _, _ => none
  | p :: rest, s, i =>
      if p.1 = s then some ((p.1, p.2 ++ [i]) :: rest)
      else (bucketAppend rest s i).map (p :: ·)

/-- `if task_id in self._tasks_by_status.get(s, []): self._tasks_by_status[s].remove(task_id)`:
remove the first occurrence of `i` from the bucket for `s` (no-op when the
key or the id is absent). -/
def bucketErase (b : StatusMap) (s : TaskStatus) (i : String) : StatusMap :=
  b.map fun p => if p.1 = s then (p.1, p.2.erase i) else p

/-- `b.get(s, [])`: the ids held in the bucket for status `s`. -/
def bIds (b : StatusMap) (s : TaskStatus) : List String :=
  (dget b s).getD []

/-- The ids held in the bucket for status `s` (`.get(s, [])`). -/
def bucketIds (c : CacheState) (s : TaskStatus) : List String :=
  bIds c.tasksByStatus s

/-- The task store's `list_tasks(status=s, include_completed=...)` call as
seen by the cache: a result list per status, or a raised exception. -/
abbrev Listing := TaskStatus → Except Unit (List Task)

/-- The inner `for task in tasks` loop of `refresh_sync`: insert each task
into `_tasks` under its upper-cased id and append that id to the current
status bucket.  The `Bool` records whether an exception (`KeyError` from a
missing bucket) was raised, ending the loop early. -/
def insertAll (s : TaskStatus) : List Task → TaskMap → StatusMap → (TaskMap × StatusMap) × Bool
  | [], m, b => ((m, b), false)
  | t :: rest, m, b =>
      let m' := dset m (pyUpper t.id) t
      match bucketAppend b s (pyUpper t.id) with
      | none => ((m', b), true)
      | some b' => insertAll s rest m' b'

/-- The `for status in TaskStatus` loop of `refresh_sync`: list each status
from the store and insert the results.  A raised store exception (or a
`KeyError`) stops the loop with the state mutated so far. -/
def refreshLoop (listing : Listing) : List TaskStatus → TaskMap → StatusMap → (TaskMap × StatusMap) × Bool
  | [], m, b => ((m, b), false)
  | s :: rest, m, b =>
      match listing s with
      | .error _ => ((m, b), true)
      | .ok ts =>
          match insertAll s ts m b with
          | ((m', b'), true) => ((m', b'), true)
          | ((m', b'), false) => refreshLoop listing rest m' b'

/-- The bucket initialisation of `refresh_sync`: every status mapped to an
empty id list, in enum order. -/
def initBuckets : StatusMap := TaskStatus.all.map fun s => (s, [])

/-- `VaultCache.refresh_sync`: clear both structures, initialise every
status bucket, then load all tasks status by status.  On an exception the
partially mutated state is kept and the exception propagates (the `Bool` is
`true`); on success `_task_count` and `_is_populated` are updated. -/
def refresh_sync (listing : Listing) (c : CacheState) : CacheState × Bool :=
  match refreshLoop listing TaskStatus.all [] initBuckets with
  | ((m, b), true) =>
      ({ tasks := m, tasksByStatus := b,
         isPopulated := c.isPopulated, taskCount := c.taskCount }, true)
  | ((m, b), false) =>
      ({ tasks := m, tasksByStatus := b,
         isPopulated := true, taskCount := m.length }, false)

/-- `VaultCache.invalidate_task`: pop the id from `_tasks`, drop it from its
old status bucket, then try to reload it from the store (`get`); the reload
block swallows every exception, including the `KeyError` from appending to a
missing bucket (in which case `_tasks` keeps the reloaded task but no bucket
references it). -/
def invalidate_task (get : Except Unit Task) (taskId : String) (c : CacheState) : CacheState :=
  let tid := pyUpper taskId
  let old? := dget c.tasks tid
  let m1 := dpop c.tasks tid
  let b1 := match old? with
    | some old => bucketErase c.tasksByStatus old.status tid
    | none => c.tasksByStatus
  match get with
  | .ok task =>
      let m2 := dset m1 tid task
      match bucketAppend b1 task.status tid with
      | some b2 =>
          { tasks := m2, tasksByStatus := b2,
            isPopulated := c.isPopulated, taskCount := m2.length }
      | none =>
          { tasks := m2, tasksByStatus := b1,
            isPopulated := c.isPopulated, taskCount := m2.length }
  | .error _ =>
      { tasks := m1, tasksByStatus := b1,
        isPopulated := c.isPopulated, taskCount := m1.length }

/-- `VaultCache.get_task`: dict lookup under the upper-cased id. -/
def get_task (c : CacheState) (taskId : String) : Option Task :=
  dget c.tasks (pyUpper taskId)

/-- `VaultCache.list_tasks`: with a status, the tasks of that bucket (ids
resolved through `_tasks`, skipping dangling ids); without, every bucket
except `completed` and `someday`, in enum order. -/
def list_tasks (c : CacheState) : Option TaskStatus → List Task
  | some s => (bucketIds c s).filterMap fun tid => dget c.tasks tid
  | none =>
      (TaskStatus.all.filter fun s => decide ¬(s = .completed ∨ s = .someday)).flatMap
        fun s => (bucketIds c s).filterMap fun tid => dget c.tasks tid

/-- `date.max.toordinal()`, the sort fallback for tasks with no due date. -/
def dateMax : Int := 3652059

/-- The sort key `(t.due or date.max, t.created)` compared lexicographically. -/
def taskKeyLe (a b : Task) : Bool :=
  decide (a.due.getD dateMax < b.due.getD dateMax ∨
    (a.due.getD dateMax = b.due.getD dateMax ∧ a.created ≤ b.created))

/-- `sorted(result, key=lambda t: (t.due or date.max, t.created))`. -/
def sortTasks (l : List Task) : List Task := l.mergeSort taskKeyLe

/-- `VaultCache.list_tasks_today`: non-completed tasks due today or before. -/
def list_tasks_today (c : CacheState) (today : Int) : List Task :=
  sortTasks ((c.tasks.map Prod.snd).filter fun t =>
    decide ¬(t.status = .completed) &&
      match t.due with
      | some d => decide (d ≤ today)
      | none => false)

/-- `VaultCache.list_tasks_overdue`: non-completed tasks due strictly before
today. -/
def list_tasks_overdue (c : CacheState) (today : Int) : List Task :=
  sortTasks ((c.tasks.map Prod.snd).filter fun t =>
    decide ¬(t.status = .completed) &&
      match t.due with
      | some d => decide (d < today)
      | none => false)

/-! ### C1: failure semantics of `refresh_sync` -/

/-- A cache previously populated with one inbox task `A1`. -/
def c1Task : Task := { id := "A1", title := "write report", status := .inbox }

/-- The pre-refresh cache state for the C1 failing input. -/
def c1Pre : CacheState :=
  { tasks := [("A1", c1Task)],
    tasksByStatus := TaskStatus.all.map fun s => (s, if s = .inbox then ["A1"] else []),
    isPopulated := true, taskCount := 1 }

/-- A store whose scan raises for every status. -/
def c1FailListing : Listing := fun _ => .error ()

/-! ### C2: the index invariant

`CacheInv` is the invariant of spec §3: every id in a status bucket maps in
`_tasks` to a task of that status, and the two structures describe the same
set of ids. -/

/-- The index invariant of spec §3 for a cache state. -/
def CacheInv (c : CacheState) : Prop :=
  (∀ s, ∀ id ∈ bucketIds c s, ∃ t, dget c.tasks id = some t ∧ t.status = s)
  ∧ (∀ p ∈ c.tasks, ∃ s, p.1 ∈ bucketIds c s)

/-- The upper-cased ids a store scan returns for one status (empty when the
listing raises). -/
def idsOf (listing : Listing) (s : TaskStatus) : List String :=
  match listing s with
  | .ok ts => ts.map fun t => pyUpper t.id
  | .error _ => []

/-- The upper-cased ids still to be loaded for the statuses in `ss`. -/
def restIds (listing : Listing) (ss : List TaskStatus) : List String :=
  ss.flatMap fun s => idsOf listing s

/-- The claim's store assumption, made precise: every listed task carries
the status it was listed under, and no (upper-cased) id is produced twice
across the whole scan. -/
def GoodListing (listing : Listing) : Prop :=
  (∀ s ts, listing s = .ok ts → ∀ t ∈ ts, t.status = s)
  ∧ (restIds listing TaskStatus.all).Nodup

/-- Internal strengthening of `CacheInv` over raw `(tasks, buckets)` pairs:
bucket ids resolve with matching status, every task id is bucketed, every
status key exists, and each bucket is duplicate-free. -/
def WFb (m : TaskMap) (b : StatusMap) : Prop :=
  (∀ s, ∀ id ∈ bIds b s, ∃ t, dget m id = some t ∧ t.status = s)
  ∧ (∀ p ∈ m, ∃ s, p.1 ∈ bIds b s)
  ∧ (∀ s, (dget b s).isSome)
  ∧ (∀ s, (bIds b s).Nodup)

/-- Ids not yet loaded: absent from the task map and from every bucket. -/
def Fresh (m : TaskMap) (b : StatusMap) (ids : List String) : Prop :=
  ∀ id ∈ ids, dget m id = none ∧ ∀ s, id ∉ bIds b s

/-- Reachable states whose operation history contains at least one completed
`refresh_sync` (with a well-behaved store scan) before any `invalidate_task`:
the daemon's own lifecycle, which performs a blocking first refresh before
serving traffic. -/
inductive PostRefresh : CacheState → Prop
  | refresh {c0 c : CacheState} {listing : Listing} :
      GoodListing listing → refresh_sync listing c0 = (c, false) → PostRefresh c
  | invalidate {c : CacheState} (get : Except Unit Task) (taskId : String) :
      PostRefresh c → PostRefresh (invalidate_task get taskId c)

/-- A task reloaded into a cache that was never refreshed. -/
def c2TaskA : Task := { id := "A1", title := "alpha", status := .inbox }

/-- `invalidate_task` run against the pristine (never refreshed) cache with
a store that still has the task. -/
def c2StateA : CacheState := invalidate_task (.ok c2TaskA) "A1" CacheState.initial

/-- The same id listed under two different statuses. -/
def c2TaskX : Task := { id := "X1", title := "xray", status := .inbox }

/-- The `X1` task as simultaneously listed under `next`. -/
def c2TaskX2 : Task := { id := "X1", title := "xray moved", status := .next }

/-- A store scan that lists id `X1` under both `inbox` and `next`, each
occurrence carrying the status it is listed under. -/
def c2ListingX : Listing := fun s =>
  match s with
  | .inbox => .ok [c2TaskX]
  | .next => .ok [c2TaskX2]
  | _ => .ok []

/-- The cache after a completed refresh from `c2ListingX`. -/
def c2StateX : CacheState := (refresh_sync c2ListingX CacheState.initial).1

/-- A task listed twice under its own status. -/
def c2TaskB : Task := { id := "B2", title := "bravo", status := .inbox }

/-- A store scan that lists `B2` twice under `inbox` (its own status). -/
def c2ListingB : Listing := fun s =>
  match s with
  | .inbox => .ok [c2TaskB, c2TaskB]
  | _ => .ok []

/-- Refresh from the duplicate listing, then invalidate `B2` with the store
now reporting it missing. -/
def c2StateB : CacheState :=
  invalidate_task (.error ()) "B2" (refresh_sync c2ListingB CacheState.initial).1

/-- A store whose scan succeeds with no tasks. -/
def c2WitnessListing : Listing := fun _ => .ok []

/-- The cache state a refresh from `c2WitnessListing` completes with. -/
def c2WitnessState : CacheState :=
  { tasks := [], tasksByStatus := initBuckets, isPopulated := true, taskCount := 0 }

/-- An active task for the C7 witness cache. -/
def c7Task1 : Task := { id := "T1", title := "active", status := .next }

/-- A completed task for the C7 witness cache. -/
def c7Task2 : Task := { id := "T2", title := "done", status := .completed }

/-- The store scan producing the C7 witness cache. -/
def c7Listing : Listing := fun s =>
  match s with
  | .next => .ok [c7Task1]
  | .completed => .ok [c7Task2]
  | _ => .ok []

/-- The cache state after a completed refresh from `c7Listing`. -/
def c7State : CacheState :=
  { tasks := [("T1", c7Task1), ("T2", c7Task2)],
    tasksByStatus := [(.inbox, []), (.next, ["T1"]), (.waiting, []),
                      (.scheduled, []), (.someday, []), (.completed, ["T2"])],
    isPopulated := true, taskCount := 2 }

/-! ### Handlers (`aio/daemon/handlers.py`) -/

/-- `task_to_dict`, restricted to the modelled `Task` fields.  Optional
fields are emitted only when set, which `Option` already captures. -/
structure TaskDict where
  id : String
  title : String
  status : String
  created : Int
  due : Option Int
  project : Option String
deriving DecidableEq, Repr

/-- `task_to_dict(task)` from `handlers.py`. -/
def task_to_dict (t : Task) : TaskDict :=
  { id := t.id, title := t.title, status := t.status.value,
    created := t.created, due := t.due, project := t.project }

/-- Python truthiness of an optional string: `None` and `""` are falsy. -/
def pyStrTruthy : Option String → Bool
  | none => false
  | some s => decide ¬(s = "")

/-- `pat in hay` on Python strings: substring containment. -/
def strContainsSub (hay pat : String) : Bool := decide (pat.data <:+: hay.data)

/-- The parameter bag of `handle_list_tasks`: optional `status` and
`project` entries. -/
structure ListTasksParams where
  status : Option String := none
  project : Option String := none

/-- The `result` of a successful `handle_list_tasks` call. -/
structure ListTasksResult where
  tasks : List TaskDict
  count : Nat
deriving DecidableEq, Repr

/-- `handle_list_tasks`: pick the task list per the `status` parameter
(`"today"`, `"overdue"`, an enum value — where an unknown value raises
`ValueError`, modelled as `none` — or the default view), narrow by the
`project` substring filter, then return the serialised tasks together with
`count = len(tasks)`. -/
def handle_list_tasks (c : CacheState) (today : Int) (p : ListTasksParams) :
    Option ListTasksResult :=
  let tasks? : Option (List Task) :=
    if p.status = some "today" then some (list_tasks_today c today)
    else if p.status = some "overdue" then some (list_tasks_overdue c today)
    else if pyStrTruthy p.status then
      (parseTaskStatus (p.status.getD "")).map fun s => list_tasks c (some s)
    else some (list_tasks c none)
  tasks?.map fun ts =>
    let ts := if pyStrTruthy p.project then
        let pl := (p.project.getD "").toLower
        ts.filter fun t =>
          match t.project with
          | some pr => decide ¬(pr = "") && strContainsSub pr.toLower pl
          | none => false
      else ts
    { tasks := ts.map task_to_dict, count := ts.length }

/-- The external collaborators `handle_get_dashboard` calls: `parse_date`
(raising `InvalidDateError`, the only error its contract allows) and
`DashboardService.generate`. -/
structure DashboardDeps where
  parse_date : String → Except Unit Int
  generate : Int → String

/-- The `result` of `handle_get_dashboard`. -/
structure DashboardResult where
  content : String
  date : Int
deriving DecidableEq, Repr

/-- `handle_get_dashboard`: start from today's date; if a truthy `date`
parameter is present, try to parse it but fall back to today on
`InvalidDateError`; then generate for the chosen date. -/
def handle_get_dashboard (deps : DashboardDeps) (today : Int)
    (dateParam : Option String) : DashboardResult :=
  let forDate :=
    match dateParam with
    | some ds =>
        if ds ≠ "" then
          match deps.parse_date ds with
          | .ok d => d
          | .error _ => today
        else today
    | none => today
  { content := deps.generate forDate, date := forDate }

/-! ### C3: mutating handlers refresh before returning -/

/-- The Entity Store as the mutating handlers see it: its current scan
behaviour. -/
structure TaskStore where
  listing : Listing

/-- The shared state a handler call touches: the store and the cache. -/
structure HandlerState where
  store : TaskStore
  cache : CacheState

/-- The index `refresh_sync` builds from a store scan, independent of the
previous cache contents (`none` when the scan raises). -/
def rebuildIndex (listing : Listing) : Option CacheState :=
  match refreshLoop listing TaskStatus.all [] initBuckets with
  | (_, true) => none
  | ((m, b), false) =>
      some { tasks := m, tasksByStatus := b, isPopulated := true, taskCount := m.length }

/-- The external service calls the mutating handlers make, per
`HandlerContext` (all out of scope per the spec §1): date parsing, project
and person lookup/slugging, and the `TaskService` write operations, each of
which returns the written task and the store's new state. -/
structure Services where
  parse_date : String → Except Unit Int
  projectFind : String → Except Unit String
  projectSlug : String → String
  personFind : String → Except Unit String
  personSlug : String → String
  taskCreate : String → Option Int → Option String → TaskStatus → TaskStore →
    Except Unit (Task × TaskStore)
  taskWait : String → String → TaskStore → Except Unit (Task × TaskStore)
  taskComplete : String → TaskStore → Except Unit (Task × TaskStore)
  taskStart : String → TaskStore → Except Unit (Task × TaskStore)
  taskDefer : String → TaskStore → Except Unit (Task × TaskStore)

/-- `await ctx.cache.refresh()`: run `refresh_sync` against the store's
current scan; a raised refresh propagates out of the handler. -/
def awaitRefresh (store : TaskStore) (c : CacheState) : Except Unit CacheState :=
  match refresh_sync store.listing c with
  | (_, true) => .error ()
  | (c', false) => .ok c'

/-- The parameter bag of `handle_add_task`. -/
structure AddTaskParams where
  title : String
  due : Option String := none
  project : Option String := none
  status : Option String := none
  assign : Option String := none

/-- The due-date parsing step of `handle_add_task`. -/
def addDueDate (svc : Services) (p : AddTaskParams) : Except Unit (Option Int) :=
  match p.due with
  | some ds => if ds ≠ "" then (svc.parse_date ds).map some else .ok none
  | none => .ok none

/-- The project-link resolution step of `handle_add_task`. -/
def addProjectLink (svc : Services) (p : AddTaskParams) : Except Unit (Option String) :=
  match p.project with
  | some pr =>
      if pr ≠ "" then
        if pr.startsWith "[[" then .ok (some pr)
        else
          match svc.projectFind pr with
          | .ok title => .ok (some ("[[AIO/Projects/" ++ svc.projectSlug title ++ "]]"))
          | .error e => .error e
      else .ok none
  | none => .ok none

/-- The optional `assign` delegation step of `handle_add_task`. -/
def addAssign (svc : Services) (p : AddTaskParams) (cr : Task × TaskStore) :
    Except Unit (Task × TaskStore) :=
  match p.assign with
  | some a =>
      if a ≠ "" then
        match svc.personFind a with
        | .ok name => svc.taskWait cr.1.id ("[[AIO/People/" ++ svc.personSlug name ++ "]]") cr.2
        | .error e => .error e
      else .ok cr
  | none => .ok cr

/-- `handle_add_task` proper: due date, project link, status parse, create,
optional delegation, cache refresh, result. -/
def handle_add_task (svc : Services) (p : AddTaskParams) (st : HandlerState) :
    Except Unit (TaskDict × HandlerState) :=
  match addDueDate svc p with
  | .error e => .error e
  | .ok dueDate =>
  match addProjectLink svc p with
  | .error e => .error e
  | .ok projectLink =>
  match parseTaskStatus (p.status.getD "inbox") with
  | none => .error ()
  | some status =>
  match svc.taskCreate p.title dueDate projectLink status st.store with
  | .error e => .error e
  | .ok cr =>
  match addAssign svc p cr with
  | .error e => .error e
  | .ok tw =>
  match awaitRefresh tw.2 st.cache with
  | .error e => .error e
  | .ok cache2 => .ok (task_to_dict tw.1, { store := tw.2, cache := cache2 })

/-- `handle_complete_task`: write through `TaskService.complete`, then
refresh the cache, then return. -/
def handle_complete_task (svc : Services) (query : String) (st : HandlerState) :
    Except Unit (TaskDict × HandlerState) :=
  match svc.taskComplete query st.store with
  | .error e => .error e
  | .ok r =>
  match awaitRefresh r.2 st.cache with
  | .error e => .error e
  | .ok cache2 => .ok (task_to_dict r.1, { store := r.2, cache := cache2 })

/-- `handle_start_task`: write through `TaskService.start`, then refresh. -/
def handle_start_task (svc : Services) (query : String) (st : HandlerState) :
    Except Unit (TaskDict × HandlerState) :=
  match svc.taskStart query st.store with
  | .error e => .error e
  | .ok r =>
  match awaitRefresh r.2 st.cache with
  | .error e => .error e
  | .ok cache2 => .ok (task_to_dict r.1, { store := r.2, cache := cache2 })

/-- `handle_defer_task`: write through `TaskService.defer`, then refresh. -/
def handle_defer_task (svc : Services) (query : String) (st : HandlerState) :
    Except Unit (TaskDict × HandlerState) :=
  match svc.taskDefer query st.store with
  | .error e => .error e
  | .ok r =>
  match awaitRefresh r.2 st.cache with
  | .error e => .error e
  | .ok cache2 => .ok (task_to_dict r.1, { store := r.2, cache := cache2 })

/-- `handle_delegate_task`: resolve the person, write through
`TaskService.wait`, then refresh; returns the task and the delegate. -/
def handle_delegate_task (svc : Services) (query personQuery : String) (st : HandlerState) :
    Except Unit ((TaskDict × String) × HandlerState) :=
  match svc.personFind personQuery with
  | .error e => .error e
  | .ok name =>
  match svc.taskWait query ("[[AIO/People/" ++ svc.personSlug name ++ "]]") st.store with
  | .error e => .error e
  | .ok r =>
  match awaitRefresh r.2 st.cache with
  | .error e => .error e
  | .ok cache2 => .ok ((task_to_dict r.1, name), { store := r.2, cache := cache2 })

/-- A store scan for the C3 witness: empty and succeeding. -/
def c3Listing : Listing := fun _ => .ok []

/-- The C3 witness store. -/
def c3Store : TaskStore := { listing := c3Listing }

/-- The task the witness store's `complete` call returns. -/
def c3Task : Task := { id := "C3", title := "done", status := .completed }

/-- Concrete services for the C3 witness. -/
def c3Svc : Services :=
  { parse_date := fun _ => .error ()
    projectFind := fun _ => .error ()
    projectSlug := fun s => s
    personFind := fun _ => .error ()
    personSlug := fun s => s
    taskCreate := fun _ _ _ _ store => .ok (c3Task, store)
    taskWait := fun _ _ store => .ok (c3Task, store)
    taskComplete := fun _ store => .ok (c3Task, store)
    taskStart := fun _ store => .ok (c3Task, store)
    taskDefer := fun _ store => .ok (c3Task, store) }

/-- The cache a refresh from `c3Listing` completes with. -/
def c3CacheAfter : CacheState :=
  { tasks := [], tasksByStatus := initBuckets, isPopulated := true, taskCount := 0 }

/-- The handler state `handle_complete_task` returns in the witness run. -/
def c3After : HandlerState := { store := c3Store, cache := c3CacheAfter }

/-- Concrete dashboard collaborators whose date parser always fails. -/
def c9Deps : DashboardDeps :=
  { parse_date := fun _ => .error (), generate := fun _ => "# Dashboard" }

/-! ### JSON-RPC protocol (`aio/daemon/protocol.py`) -/

namespace ErrorCode

/-- `ErrorCode.PARSE_ERROR`. -/
def PARSE_ERROR : Int := -32700

/-- `ErrorCode.INVALID_REQUEST`. -/
def INVALID_REQUEST : Int := -32600

/-- `ErrorCode.METHOD_NOT_FOUND`. -/
def METHOD_NOT_FOUND : Int := -32601

/-- `ErrorCode.INVALID_PARAMS`. -/
def INVALID_PARAMS : Int := -32602

/-- `ErrorCode.INTERNAL_ERROR`. -/
def INTERNAL_ERROR : Int := -32603

/-- `ErrorCode.TASK_NOT_FOUND`. -/
def TASK_NOT_FOUND : Int := -32001

/-- `ErrorCode.AMBIGUOUS_MATCH`. -/
def AMBIGUOUS_MATCH : Int := -32002

/-- `ErrorCode.VAULT_NOT_FOUND`. -/
def VAULT_NOT_FOUND : Int := -32003

/-- `ErrorCode.INVALID_DATE`. -/
def INVALID_DATE : Int := -32004

/-- `ErrorCode.VAULT_NOT_INITIALIZED`. -/
def VAULT_NOT_INITIALIZED : Int := -32005

/-- `ErrorCode.PROJECT_NOT_FOUND`. -/
def PROJECT_NOT_FOUND : Int := -32006

/-- `ErrorCode.PERSON_NOT_FOUND`. -/
def PERSON_NOT_FOUND : Int := -32007

/-- `ErrorCode.CONTEXT_PACK_NOT_FOUND`. -/
def CONTEXT_PACK_NOT_FOUND : Int := -32008

/-- `ErrorCode.CONTEXT_PACK_EXISTS`. -/
def CONTEXT_PACK_EXISTS : Int := -32009

/-- `ErrorCode.FILE_OUTSIDE_VAULT`. -/
def FILE_OUTSIDE_VAULT : Int := -32010

end ErrorCode

/-- `ErrorCode(code).name if code in ErrorCode.__members__.values() else str(code)`. -/
def errorCodeName (code : Int) : String :=
  if code = ErrorCode.PARSE_ERROR then "PARSE_ERROR"
  else if code = ErrorCode.INVALID_REQUEST then "INVALID_REQUEST"
  else if code = ErrorCode.METHOD_NOT_FOUND then "METHOD_NOT_FOUND"
  else if code = ErrorCode.INVALID_PARAMS then "INVALID_PARAMS"
  else if code = ErrorCode.INTERNAL_ERROR then "INTERNAL_ERROR"
  else if code = ErrorCode.TASK_NOT_FOUND then "TASK_NOT_FOUND"
  else if code = ErrorCode.AMBIGUOUS_MATCH then "AMBIGUOUS_MATCH"
  else if code = ErrorCode.VAULT_NOT_FOUND then "VAULT_NOT_FOUND"
  else if code = ErrorCode.INVALID_DATE then "INVALID_DATE"
  else if code = ErrorCode.VAULT_NOT_INITIALIZED then "VAULT_NOT_INITIALIZED"
  else if code = ErrorCode.PROJECT_NOT_FOUND then "PROJECT_NOT_FOUND"
  else if code = ErrorCode.PERSON_NOT_FOUND then "PERSON_NOT_FOUND"
  else if code = ErrorCode.CONTEXT_PACK_NOT_FOUND then "CONTEXT_PACK_NOT_FOUND"
  else if code = ErrorCode.CONTEXT_PACK_EXISTS then "CONTEXT_PACK_EXISTS"
  else if code = ErrorCode.FILE_OUTSIDE_VAULT then "FILE_OUTSIDE_VAULT"
  else toString code

/-- The `id` of a JSON-RPC envelope: `int | str | None`. -/
inductive RpcId
  | num (n : Int)
  | str (s : String)
  | null
deriving DecidableEq, Repr

/-- `JsonRpcError` (the `data` field, unused by the daemon, is omitted). -/
structure JsonRpcError where
  code : Int
  message : String
deriving DecidableEq, Repr

/-- `JsonRpcResponse`, generic in the result payload type. -/
structure JsonRpcResponse (ρ : Type) where
  id : RpcId := .null
  result : Option ρ := none
  error : Option JsonRpcError := none
deriving DecidableEq, Repr

/-- `JsonRpcResponse.success`. -/
def successResponse {ρ : Type} (result : ρ) (request_id : RpcId) : JsonRpcResponse ρ :=
  { id := request_id, result := some result, error := none }

/-- `JsonRpcResponse.error_response`. -/
def errorResponse {ρ : Type} (code : Int) (message : String) (request_id : RpcId) :
    JsonRpcResponse ρ :=
  { id := request_id, result := none, error := some { code := code, message := message } }

/-! ### C4: HTTP status mapping (`aio/daemon/transports/http.py`) -/

/-- The body of an HTTP response: `{"ok": true, "data": ...}` or
`{"ok": false, "error": {"code": ..., "message": ...}}`. -/
inductive HttpBody (ρ : Type)
  | success (data : Option ρ)
  | failure (code : String) (message : String)
deriving DecidableEq, Repr

/-- An HTTP response: status code plus body. -/
structure WebResponse (ρ : Type) where
  status : Nat
  body : HttpBody ρ
deriving DecidableEq, Repr

/-- The status-code if-chain of `HttpTransport._rpc_error_to_response`. -/
def rpc_error_to_status (code : Int) : Nat :=
  if code = ErrorCode.METHOD_NOT_FOUND then 404
  else if code = ErrorCode.INVALID_PARAMS ∨ code = ErrorCode.INVALID_REQUEST then 400
  else if code = ErrorCode.TASK_NOT_FOUND ∨ code = ErrorCode.PROJECT_NOT_FOUND ∨
      code = ErrorCode.PERSON_NOT_FOUND ∨ code = ErrorCode.CONTEXT_PACK_NOT_FOUND then 404
  else if code = ErrorCode.AMBIGUOUS_MATCH then 409
  else 500

/-- `HttpTransport._rpc_error_to_response`: success responses pass through
with status 200; error responses get the mapped status and a
`{"ok": false, ...}` body naming the code. -/
def rpc_error_to_response {ρ : Type} (resp : JsonRpcResponse ρ) : WebResponse ρ :=
  match resp.error with
  | none => { status := 200, body := .success resp.result }
  | some err =>
      { status := rpc_error_to_status err.code,
        body := .failure (errorCodeName err.code) err.message }

/-- The HTTP status table exactly as claim C4 states it: 404 for
method-not-found and for every code in the −32010..−32003 domain range,
409 for ambiguous-match, 400 for invalid-request/invalid-params, 500
otherwise. -/
def claimedStatusC4 (code : Int) : Nat :=
  if code = -32601 then 404
  else if -32010 ≤ code ∧ code ≤ -32003 then 404
  else if code = -32002 then 409
  else if code = -32600 ∨ code = -32602 then 400
  else 500

/-- The HTTP status table the code actually implements: 404 only for
method-not-found and the four specific not-found codes −32001, −32006,
−32007, −32008; 409 for −32002; 400 for −32600/−32602; 500 for everything
else, including the domain codes −32003, −32004, −32005, −32009, −32010. -/
def amendedStatusC4 (code : Int) : Nat :=
  if code = -32601 ∨ code = -32001 ∨ code = -32006 ∨ code = -32007 ∨ code = -32008 then 404
  else if code = -32002 then 409
  else if code = -32600 ∨ code = -32602 then 400
  else 500

/-! ### C6: the dispatcher (`aio/daemon/handlers.py`) -/

/-- The handler functions registered in the `HANDLERS` table, one tag per
Python function object. -/
inductive HandlerTag
  | listTasks
  | getTask
  | addTask
  | completeTask
  | startTask
  | deferTask
  | delegateTask
  | getDashboard
  | listProjects
  | createProject
  | listPeople
  | createPerson
  | getContext
  | listContextPacks
  | createContextPack
  | addToContextPack
  | addFileToContextPack
  | fileGet
  | fileSet
deriving DecidableEq, Repr

/-- The `HANDLERS` registry: method name → handler, in source order. -/
def HANDLERS : List (String × HandlerTag) :=
  [("list_tasks", .listTasks),
   ("get_task", .getTask),
   ("add_task", .addTask),
   ("complete_task", .completeTask),
   ("start_task", .startTask),
   ("defer_task", .deferTask),
   ("delegate_task", .delegateTask),
   ("get_dashboard", .getDashboard),
   ("list_projects", .listProjects),
   ("create_project", .createProject),
   ("list_people", .listPeople),
   ("create_person", .createPerson),
   ("get_context", .getContext),
   ("list_context_packs", .listContextPacks),
   ("create_context_pack", .createContextPack),
   ("add_to_context_pack", .addToContextPack),
   ("add_file_to_context_pack", .addFileToContextPack),
   ("file_get", .fileGet),
   ("file_set", .fileSet)]

/-- The `AioError` subclasses named in `EXCEPTION_TO_ERROR_CODE`. -/
inductive AioExcType
  | taskNotFound
  | ambiguousMatch
  | vaultNotFound
  | invalidDate
  | vaultNotInitialized
  | projectNotFound
  | personNotFound
  | contextPackNotFound
  | contextPackExists
  | fileOutsideVault
deriving DecidableEq, Repr

/-- `exception_to_error_code`: the fixed exception-class → code table. -/
def exception_to_error_code : AioExcType → Int
  | .taskNotFound => ErrorCode.TASK_NOT_FOUND
  | .ambiguousMatch => ErrorCode.AMBIGUOUS_MATCH
  | .vaultNotFound => ErrorCode.VAULT_NOT_FOUND
  | .invalidDate => ErrorCode.INVALID_DATE
  | .vaultNotInitialized => ErrorCode.VAULT_NOT_INITIALIZED
  | .projectNotFound => ErrorCode.PROJECT_NOT_FOUND
  | .personNotFound => ErrorCode.PERSON_NOT_FOUND
  | .contextPackNotFound => ErrorCode.CONTEXT_PACK_NOT_FOUND
  | .contextPackExists => ErrorCode.CONTEXT_PACK_EXISTS
  | .fileOutsideVault => ErrorCode.FILE_OUTSIDE_VAULT

/-- What a handler invocation can raise: a mapped `AioError` or any other
exception (which becomes a generic internal error). -/
inductive HandlerFailure
  | aio (t : AioExcType) (msg : String)
  | other (msg : String)

/-- `dispatch_request`: look the method up in `HANDLERS`; when absent,
return a `METHOD_NOT_FOUND` error echoing the request id without invoking
anything (the second component records which handler, if any, ran);
otherwise run the handler and translate raised exceptions through
`exception_to_error_code`. -/
def dispatch_request {ρ : Type} (run : HandlerTag → Except HandlerFailure ρ)
    (method : String) (request_id : RpcId) : JsonRpcResponse ρ × Option HandlerTag :=
  match dget HANDLERS method with
  | none =>
      (errorResponse ErrorCode.METHOD_NOT_FOUND ("Method not found: " ++ method) request_id,
       none)
  | some h =>
      match run h with
      | .ok result => (successResponse result request_id, some h)
      | .error (.aio t msg) => (errorResponse (exception_to_error_code t) msg request_id, some h)
      | .error (.other msg) => (errorResponse ErrorCode.INTERNAL_ERROR msg request_id, some h)

/-! ### Socket framing (`aio/daemon/transports/unix_socket.py`) -/

/-- `LENGTH_PREFIX_SIZE`: the 4-byte length header. -/
def LENGTH_PREFIX_SIZE : Nat := 4

/-- `MAX_MESSAGE_SIZE`: 10 MiB. -/
def MAX_MESSAGE_SIZE : Nat := 10 * 1024 * 1024

/-- `struct.unpack(">I", bytes)`: big-endian unsigned interpretation. -/
def bytesToNat (bs : List Nat) : Nat := bs.foldl (fun acc b => acc * 256 + b) 0

/-- The outcome of `_read_message`: `None` on a closed/short stream, a
raised `ValueError` on an oversized declared length, or the message body
plus the unconsumed remainder of the stream. -/
inductive ReadResult
  | closed
  | tooLarge (declared : Nat)
  | msg (body : List Nat) (rest : List Nat)
deriving DecidableEq, Repr

/-- `UnixSocketTransport._read_message` over the stream of bytes the peer
sends before closing: read the 4-byte prefix (short read ⇒ `None`),
validate the declared size *before* reading any body byte (raising when it
exceeds the maximum), then read exactly that many body bytes. -/
def read_message (input : List Nat) : ReadResult :=
  if (input.take LENGTH_PREFIX_SIZE).length < LENGTH_PREFIX_SIZE then .closed
  else if bytesToNat (input.take LENGTH_PREFIX_SIZE) > MAX_MESSAGE_SIZE then
    .tooLarge (bytesToNat (input.take LENGTH_PREFIX_SIZE))
  else if ((input.drop LENGTH_PREFIX_SIZE).take
      (bytesToNat (input.take LENGTH_PREFIX_SIZE))).length <
      bytesToNat (input.take LENGTH_PREFIX_SIZE) then .closed
  else
    .msg ((input.drop LENGTH_PREFIX_SIZE).take (bytesToNat (input.take LENGTH_PREFIX_SIZE)))
         ((input.drop LENGTH_PREFIX_SIZE).drop (bytesToNat (input.take LENGTH_PREFIX_SIZE)))

/-- The per-connection loop of `_handle_client`: read a frame, process it
(`_process_request` never raises), write the framed response, repeat.  A
closed stream ends the loop normally; a raised `ValueError` escapes the
loop and is caught by the outer handler, after which the `finally` block
closes the connection — the `Bool` records that abnormal teardown.  In
both cases no response is written for the failing frame. -/
def handle_client {ρ : Type} (process : List Nat → ρ) (input : List Nat) : List ρ × Bool :=
  match h : read_message input with
  | .closed => ([], false)
  | .tooLarge _ => ([], true)
  | .msg body rest =>
      let step := handle_client process rest
      (process body :: step.1, step.2)
termination_by input.length
decreasing_by
  rw [read_message] at h
  split_ifs at h with h1 h2 h3
  injection h with hb hr
  subst hr
  rw [List.length_take] at h1
  rw [List.length_drop, List.length_drop]
  have h5 : 0 < LENGTH_PREFIX_SIZE := by decide
  omega

/-- A frame declaring 10 MiB + 1 bytes: `0x00A00001`. -/
def c5Input : List Nat := [0, 160, 0, 1]

/-- A frame declaring exactly 10 MiB (`0x00A00000`) followed by exactly
that many body bytes. -/
def c10Input : List Nat := [0, 160, 0, 0] ++ List.replicate MAX_MESSAGE_SIZE 0

/-! ### Theorems -/

theorem TaskStatus.mem_all (s : TaskStatus) : s ∈ TaskStatus.all := by
  cases s <;> simp [TaskStatus.all]

@[simp] theorem dget_nil [DecidableEq κ] (k : κ) : dget ([] : List (κ × ν)) k = none := rfl

theorem dget_dset_self [DecidableEq κ] (m : List (κ × ν)) (k : κ) (v : ν) :
    dget (dset m k v) k = some v := by
  induction m with
  | nil => simp [dget, dset]
  | cons p rest ih =>
      by_cases h : p.1 = k
      · simp [dget, dset, h]
      · simp [dget, dset, h, ih]

theorem dget_dset_ne [DecidableEq κ] (m : List (κ × ν)) (k k' : κ) (v : ν)
    (h : k' ≠ k) : dget (dset m k v) k' = dget m k' := by
  induction m with
  | nil => simp [dget, dset, Ne.symm h]
  | cons p rest ih =>
      by_cases hp : p.1 = k
      · subst hp
        simp [dget, dset, h, Ne.symm h]
      · by_cases hp' : p.1 = k'
        · simp [dget, dset, hp, hp', h, Ne.symm h]
        · simp [dget, dset, hp, hp', ih]

theorem mem_dset [DecidableEq κ] (m : List (κ × ν)) (k : κ) (v : ν) (p : κ × ν)
    (h : p ∈ dset m k v) : p = (k, v) ∨ p ∈ m := by
  induction m with
  | nil => simpa [dset] using h
  | cons q rest ih =>
      by_cases hq : q.1 = k
      · simp only [dset, hq, if_pos rfl] at h
        rcases List.mem_cons.mp h with h | h
        · exact Or.inl h
        · exact Or.inr (List.mem_cons_of_mem _ h)
      · simp only [dset, hq, if_neg hq] at h
        rcases List.mem_cons.mp h with h | h
        · exact Or.inr (List.mem_cons.mpr (Or.inl h))
        · rcases ih h with h | h
          · exact Or.inl h
          · exact Or.inr (List.mem_cons_of_mem _ h)

theorem dget_dpop_self [DecidableEq κ] (m : List (κ × ν)) (k : κ) :
    dget (dpop m k) k = none := by
  induction m with
  | nil => rfl
  | cons p rest ih =>
      by_cases h : p.1 = k
      · simpa [dpop, List.filter, h] using ih
      · simpa [dpop, List.filter, h, dget] using ih

theorem dget_dpop_ne [DecidableEq κ] (m : List (κ × ν)) (k k' : κ) (h : k' ≠ k) :
    dget (dpop m k) k' = dget m k' := by
  induction m with
  | nil => rfl
  | cons p rest ih =>
      by_cases hp : p.1 = k
      · have hp' : ¬ p.1 = k' := by rw [hp]; exact Ne.symm h
        simpa [dpop, List.filter, hp, dget, hp', h, Ne.symm h] using ih
      · by_cases hp' : p.1 = k'
        · simp [dpop, List.filter, hp, dget, hp', h, Ne.symm h]
        · simpa [dpop, List.filter, hp, dget, hp', h, Ne.symm h] using ih

theorem mem_dpop [DecidableEq κ] (m : List (κ × ν)) (k : κ) (p : κ × ν)
    (h : p ∈ dpop m k) : p ∈ m ∧ ¬ p.1 = k := by
  have := List.mem_filter.mp h
  exact ⟨this.1, by simpa using this.2⟩

theorem dget_mem [DecidableEq κ] (m : List (κ × ν)) (k : κ) (v : ν)
    (h : dget m k = some v) : (k, v) ∈ m := by
  induction m with
  | nil => cases h
  | cons p rest ih =>
      by_cases hp : p.1 = k
      · simp only [dget, if_pos hp] at h
        injection h with h
        have : p = (k, v) := Prod.ext hp h
        exact this ▸ List.mem_cons_self p rest
      · simp only [dget, if_neg hp] at h
        exact List.mem_cons_of_mem _ (ih h)

/-- C1.  The claim (and §4.1 of the spec) says a failing store scan leaves
the previous index in effect.  The code instead clears `_tasks` and
`_tasks_by_status` *before* the scan, so at the failing input — a cache
holding task `A1` and a store whose listing raises — the exception
propagates (`true`) but `get_task "A1"` flips from `some c1Task` to `none`:
the pre-refresh index is destroyed, contradicting the spec's stated intent
(flagged in spec §9 as a correctness gap of the source). -/
theorem c1_refresh_failure_clears_previous_index :
    get_task c1Pre "A1" = some c1Task ∧
    (refresh_sync c1FailListing c1Pre).2 = true ∧
    get_task (refresh_sync c1FailListing c1Pre).1 "A1" = none := by
  refine ⟨by decide, by decide, by decide⟩

theorem WFb_cacheInv {c : CacheState} (h : WFb c.tasks c.tasksByStatus) : CacheInv c :=
  ⟨h.1, h.2.1⟩

theorem bucketAppend_some (b : StatusMap) (s : TaskStatus) (i : String)
    (h : (dget b s).isSome) :
    ∃ b', bucketAppend b s i = some b' ∧
      ∀ s', dget b' s' = if s' = s then some (bIds b s ++ [i]) else dget b s' := by
  induction b with
  | nil => simp [dget] at h
  | cons p rest ih =>
      by_cases hp : p.1 = s
      · subst hp
        refine ⟨(p.1, p.2 ++ [i]) :: rest, by simp [bucketAppend], ?_⟩
        intro s'
        by_cases hs : s' = p.1
        · subst hs
          simp [dget, bIds]
        · simp [dget, bIds, hs, Ne.symm hs]
      · have h' : (dget rest s).isSome := by
          simpa [dget, hp] using h
        obtain ⟨b'', hb'', hchar⟩ := ih h'
        refine ⟨p :: b'', by simp [bucketAppend, hp, hb''], ?_⟩
        intro s'
        by_cases hps : p.1 = s'
        · have hs : ¬ s' = s := by rw [← hps]; exact fun hh => hp hh
          simp [dget, hps, hs]
        · have : bIds (p :: rest) s = bIds rest s := by
            simp [bIds, dget, hp]
          by_cases hs : s' = s
          · simp [dget, hp, hps, hs, this, hchar]
          · simp [dget, hp, hps, hs, hchar]

theorem dget_bucketErase (b : StatusMap) (s s' : TaskStatus) (i : String) :
    dget (bucketErase b s i) s' =
      if s' = s then (dget b s).map (fun l => l.erase i) else dget b s' := by
  induction b with
  | nil => simp [bucketErase, dget]
  | cons p rest ih =>
      simp only [bucketErase] at ih ⊢
      by_cases hp : p.1 = s
      · subst hp
        by_cases hs : s' = p.1
        · subst hs; simp [dget]
        · simp [dget, hs, Ne.symm hs, ih]
      · by_cases hps : p.1 = s'
        · have hs : ¬ s' = s := by rw [← hps]; exact fun hh => hp hh
          simp [dget, hp, hps, hs]
        · by_cases hs : s' = s
          · subst hs; simp [dget, hp, hps, ih]
          · simp [dget, hp, hps, hs, ih]

theorem bIds_bucketErase (b : StatusMap) (s s' : TaskStatus) (i : String) :
    bIds (bucketErase b s i) s' =
      if s' = s then (bIds b s').erase i else bIds b s' := by
  by_cases hs : s' = s
  · subst hs
    cases hb : dget b s' with
    | none => simp [bIds, dget_bucketErase, hb]
    | some l => simp [bIds, dget_bucketErase, hb]
  · simp [bIds, dget_bucketErase, hs]

theorem insertAll_wf (s : TaskStatus) :
    ∀ (ts : List Task) (m : TaskMap) (b : StatusMap) (rest : List String),
      (∀ t ∈ ts, t.status = s) →
      WFb m b →
      Fresh m b ((ts.map fun t => pyUpper t.id) ++ rest) →
      ((ts.map fun t => pyUpper t.id) ++ rest).Nodup →
      (insertAll s ts m b).2 = false ∧
      WFb (insertAll s ts m b).1.1 (insertAll s ts m b).1.2 ∧
      Fresh (insertAll s ts m b).1.1 (insertAll s ts m b).1.2 rest := by
  intro ts
  induction ts with
  | nil =>
      intro m b rest _ hwf hf _
      exact ⟨rfl, hwf, fun id hid => hf id (by simpa using hid)⟩
  | cons t ts ih =>
      intro m b rest hst hwf hf hnd
      obtain ⟨hm, hc, hk, hbn⟩ := hwf
      obtain ⟨b', happ, hb'⟩ := bucketAppend_some b s (pyUpper t.id) (hk s)
      have hfresh : dget m (pyUpper t.id) = none ∧ ∀ s', pyUpper t.id ∉ bIds b s' :=
        hf (pyUpper t.id) (by simp)
      have hnd' := hnd
      rw [List.map_cons, List.cons_append, List.nodup_cons] at hnd'
      obtain ⟨hnotmem, hndtail⟩ := hnd'
      have hbids : ∀ s', bIds b' s' =
          if s' = s then bIds b s ++ [pyUpper t.id] else bIds b s' := by
        intro s'
        by_cases hs : s' = s
        · subst hs; simp [bIds, hb' s']
        · simp [bIds, hb' s', hs]
      -- the new intermediate state after one iteration
      have step : insertAll s (t :: ts) m b = insertAll s ts (dset m (pyUpper t.id) t) b' := by
        simp [insertAll, happ]
      rw [step]
      apply ih (dset m (pyUpper t.id) t) b' rest
        (fun t' ht' => hst t' (List.mem_cons_of_mem _ ht'))
      · -- WFb of the intermediate state
        refine ⟨?_, ?_, ?_, ?_⟩
        · intro s' id hid
          by_cases hs : s' = s
          · subst hs
            rw [hbids s', if_pos rfl] at hid
            rcases List.mem_append.mp hid with hid | hid
            · have hne : id ≠ pyUpper t.id := fun hh => (hfresh.2 s') (hh ▸ hid)
              obtain ⟨t', ht', hts'⟩ := hm s' id hid
              exact ⟨t', by rw [dget_dset_ne _ _ _ _ hne]; exact ht', hts'⟩
            · have hid' : id = pyUpper t.id := by simpa using hid
              subst hid'
              exact ⟨t, dget_dset_self _ _ _, hst t (List.mem_cons_self t ts)⟩
          · rw [hbids s', if_neg hs] at hid
            have hne : id ≠ pyUpper t.id := fun hh => (hfresh.2 s') (hh ▸ hid)
            obtain ⟨t', ht', hts'⟩ := hm s' id hid
            exact ⟨t', by rw [dget_dset_ne _ _ _ _ hne]; exact ht', hts'⟩
        · intro p hp
          rcases mem_dset _ _ _ _ hp with hp | hp
          · subst hp
            exact ⟨s, by rw [hbids s, if_pos rfl]; simp⟩
          · obtain ⟨s'', hs''⟩ := hc p hp
            refine ⟨s'', ?_⟩
            by_cases hseq : s'' = s
            · subst hseq
              rw [hbids s'', if_pos rfl]
              exact List.mem_append_left _ hs''
            · rw [hbids s'', if_neg hseq]; exact hs''
        · intro s'
          rw [hb' s']
          by_cases hs : s' = s
          · simp [hs]
          · simp [hs, hk s']
        · intro s'
          by_cases hs : s' = s
          · subst hs
            rw [hbids s', if_pos rfl]
            simp only [List.nodup_append, List.nodup_cons, List.nodup_nil]
            exact ⟨hbn s', ⟨by simp, trivial⟩, by
              intro a ha hb
              have : a = pyUpper t.id := by simpa using hb
              exact (hfresh.2 s') (this ▸ ha)⟩
          · rw [hbids s', if_neg hs]; exact hbn s'
      · -- freshness of the remaining ids
        intro id hid
        have hmem : id ∈ (t :: ts).map (fun t => pyUpper t.id) ++ rest := by
          rw [List.map_cons, List.cons_append]
          exact List.mem_cons_of_mem _ hid
        have hne : id ≠ pyUpper t.id := fun hh => hnotmem (hh ▸ hid)
        refine ⟨by rw [dget_dset_ne _ _ _ _ hne]; exact (hf id hmem).1, ?_⟩
        intro s'
        by_cases hs : s' = s
        · subst hs
          rw [hbids s', if_pos rfl]
          intro hmem'
          rcases List.mem_append.mp hmem' with hmem' | hmem'
          · exact (hf id hmem).2 s' hmem'
          · exact hne (by simpa using hmem')
        · rw [hbids s', if_neg hs]
          exact (hf id hmem).2 s'
      · exact hndtail

theorem refreshLoop_wf (listing : Listing)
    (hg : ∀ s ts, listing s = .ok ts → ∀ t ∈ ts, t.status = s) :
    ∀ (ss : List TaskStatus) (m : TaskMap) (b : StatusMap),
      WFb m b → Fresh m b (restIds listing ss) → (restIds listing ss).Nodup →
      (refreshLoop listing ss m b).2 = false →
      WFb (refreshLoop listing ss m b).1.1 (refreshLoop listing ss m b).1.2 := by
  intro ss
  induction ss with
  | nil => intro m b hwf _ _ _; exact hwf
  | cons s ss ih =>
      intro m b hwf hf hnd hok
      cases hls : listing s with
      | error e =>
          rw [refreshLoop, hls] at hok
          cases hok
      | ok ts =>
          have hids : restIds listing (s :: ss) =
              (ts.map fun t => pyUpper t.id) ++ restIds listing ss := by
            simp [restIds, idsOf, hls]
          rw [hids] at hf hnd
          obtain ⟨hraised, hwf', hf'⟩ :=
            insertAll_wf s ts m b (restIds listing ss) (hg s ts hls) hwf hf hnd
          have hnd' : (restIds listing ss).Nodup := hnd.of_append_right
          rcases hia : insertAll s ts m b with ⟨⟨m', b'⟩, raised⟩
          have hr : raised = false := by rw [hia] at hraised; exact hraised
          subst hr
          rw [hia] at hwf' hf'
          have hstep : refreshLoop listing (s :: ss) m b = refreshLoop listing ss m' b' := by
            simp only [refreshLoop, hls, hia]
          rw [hstep] at hok ⊢
          exact ih m' b' hwf' hf' hnd' hok

theorem dget_initBuckets (s : TaskStatus) : dget initBuckets s = some [] := by
  cases s <;> rfl

theorem refresh_sync_wf (listing : Listing) (c : CacheState)
    (hg : GoodListing listing) (hok : (refresh_sync listing c).2 = false) :
    WFb (refresh_sync listing c).1.tasks (refresh_sync listing c).1.tasksByStatus := by
  have hwf0 : WFb [] initBuckets := by
    refine ⟨?_, ?_, ?_, ?_⟩
    · intro s id hid
      rw [bIds, dget_initBuckets] at hid
      cases hid
    · intro p hp; cases hp
    · intro s; rw [dget_initBuckets]; rfl
    · intro s; rw [bIds, dget_initBuckets]; exact List.nodup_nil
  have hf0 : Fresh [] initBuckets (restIds listing TaskStatus.all) := by
    intro id _
    refine ⟨rfl, ?_⟩
    intro s
    rw [bIds, dget_initBuckets]
    simp
  have hloop := refreshLoop_wf listing hg.1 TaskStatus.all [] initBuckets hwf0 hf0 hg.2
  rcases hl : refreshLoop listing TaskStatus.all [] initBuckets with ⟨⟨m, b⟩, raised⟩
  cases raised with
  | true =>
      have : (refresh_sync listing c).2 = true := by
        rw [refresh_sync, hl]
      rw [this] at hok
      cases hok
  | false =>
      have hwfmb : WFb m b := by
        have := hloop (by rw [hl])
        rw [hl] at this
        exact this
      have : refresh_sync listing c =
          ({ tasks := m, tasksByStatus := b, isPopulated := true, taskCount := m.length }, false) := by
        rw [refresh_sync, hl]
      rw [this]
      exact hwfmb

theorem invalidate_mid_wf (c : CacheState) (tid : String)
    (hwf : WFb c.tasks c.tasksByStatus) (b1 : StatusMap)
    (hb1 : (dget c.tasks tid = none ∧ b1 = c.tasksByStatus) ∨
           (∃ old, dget c.tasks tid = some old ∧ b1 = bucketErase c.tasksByStatus old.status tid)) :
    WFb (dpop c.tasks tid) b1 ∧ (∀ s', tid ∉ bIds b1 s') := by
  obtain ⟨hm, hc, hk, hbn⟩ := hwf
  rcases hb1 with ⟨hnone, rfl⟩ | ⟨old, hsome, rfl⟩
  · -- the id was not cached: buckets untouched, and they never held it
    have hnot : ∀ s', tid ∉ bIds c.tasksByStatus s' := by
      intro s' hmem
      obtain ⟨t, ht, _⟩ := hm s' tid hmem
      rw [hnone] at ht
      cases ht
    refine ⟨⟨?_, ?_, hk, hbn⟩, hnot⟩
    · intro s' id hid
      obtain ⟨t, ht, hts⟩ := hm s' id hid
      have hne : id ≠ tid := fun hh => hnot s' (hh ▸ hid)
      exact ⟨t, by rw [dget_dpop_ne _ _ _ hne]; exact ht, hts⟩
    · intro p hp
      exact hc p (mem_dpop _ _ _ hp).1
  · -- the id was cached with status `old.status`; its bucket entry is erased
    have hnot : ∀ s', tid ∉ bIds (bucketErase c.tasksByStatus old.status tid) s' := by
      intro s'
      rw [bIds_bucketErase]
      by_cases hs : s' = old.status
      · rw [if_pos hs]
        intro hmem
        exact (((hbn s').mem_erase_iff.mp hmem).1) rfl
      · rw [if_neg hs]
        intro hmem
        obtain ⟨t, ht, hts⟩ := hm s' tid hmem
        rw [hsome] at ht
        injection ht with ht
        exact hs (by rw [← hts, ht])
    refine ⟨⟨?_, ?_, ?_, ?_⟩, hnot⟩
    · intro s' id hid
      have hid' : id ∈ bIds c.tasksByStatus s' := by
        rw [bIds_bucketErase] at hid
        by_cases hs : s' = old.status
        · rw [if_pos hs] at hid
          exact List.mem_of_mem_erase hid
        · rwa [if_neg hs] at hid
      have hne : id ≠ tid := fun hh => hnot s' (hh ▸ hid)
      obtain ⟨t, ht, hts⟩ := hm s' id hid'
      exact ⟨t, by rw [dget_dpop_ne _ _ _ hne]; exact ht, hts⟩
    · intro p hp
      obtain ⟨hpm, hptid⟩ := mem_dpop _ _ _ hp
      obtain ⟨s'', hs''⟩ := hc p hpm
      refine ⟨s'', ?_⟩
      rw [bIds_bucketErase]
      by_cases hs : s'' = old.status
      · rw [if_pos hs]
        exact (List.mem_erase_of_ne hptid).mpr hs''
      · rwa [if_neg hs]
    · intro s'
      rw [dget_bucketErase]
      by_cases hs : s' = old.status
      · rw [if_pos hs]
        cases h : dget c.tasksByStatus old.status with
        | none => have := hk old.status; rw [h] at this; cases this
        | some l => rfl
      · rw [if_neg hs]; exact hk s'
    · intro s'
      rw [bIds_bucketErase]
      by_cases hs : s' = old.status
      · rw [if_pos hs]; exact (hbn s').erase _
      · rw [if_neg hs]; exact hbn s'

theorem append_step_wf (m1 : TaskMap) (b1 : StatusMap) (tid : String) (task : Task)
    (hwf : WFb m1 b1) (hnot : ∀ s', tid ∉ bIds b1 s')
    (b2 : StatusMap) (happ : bucketAppend b1 task.status tid = some b2) :
    WFb (dset m1 tid task) b2 := by
  obtain ⟨hm, hc, hk, hbn⟩ := hwf
  obtain ⟨b2', happ', hchar⟩ := bucketAppend_some b1 task.status tid (hk task.status)
  have hb2 : b2 = b2' := by rw [happ] at happ'; injection happ'
  subst hb2
  have hbids : ∀ s', bIds b2 s' =
      if s' = task.status then bIds b1 task.status ++ [tid] else bIds b1 s' := by
    intro s'
    simp only [bIds]
    rw [hchar s']
    by_cases hs : s' = task.status
    · rw [if_pos hs, if_pos hs]; rfl
    · rw [if_neg hs, if_neg hs]
  refine ⟨?_, ?_, ?_, ?_⟩
  · intro s' id hid
    rw [hbids s'] at hid
    by_cases hs : s' = task.status
    · rw [if_pos hs] at hid
      rcases List.mem_append.mp hid with hid | hid
      · have hne : id ≠ tid := fun hh => hnot task.status (hh ▸ hid)
        obtain ⟨t, ht, hts⟩ := hm task.status id hid
        exact ⟨t, by rw [dget_dset_ne _ _ _ _ hne]; exact ht, by rw [hts, hs]⟩
      · have hid' : id = tid := by simpa using hid
        subst hid'
        exact ⟨task, dget_dset_self _ _ _, hs.symm⟩
    · rw [if_neg hs] at hid
      have hne : id ≠ tid := fun hh => hnot s' (hh ▸ hid)
      obtain ⟨t, ht, hts⟩ := hm s' id hid
      exact ⟨t, by rw [dget_dset_ne _ _ _ _ hne]; exact ht, hts⟩
  · intro p hp
    rcases mem_dset _ _ _ _ hp with hp | hp
    · subst hp
      exact ⟨task.status, by rw [hbids _, if_pos rfl]; simp⟩
    · obtain ⟨s'', hs''⟩ := hc p hp
      refine ⟨s'', ?_⟩
      rw [hbids s'']
      by_cases hs : s'' = task.status
      · rw [if_pos hs]; exact List.mem_append_left _ (hs ▸ hs'')
      · rwa [if_neg hs]
  · intro s'
    rw [hchar s']
    by_cases hs : s' = task.status
    · rw [if_pos hs]; rfl
    · rw [if_neg hs]; exact hk s'
  · intro s'
    rw [hbids s']
    by_cases hs : s' = task.status
    · rw [if_pos hs]
      simp only [List.nodup_append, List.nodup_cons, List.nodup_nil]
      exact ⟨hbn task.status, ⟨by simp, trivial⟩, by
        intro a ha hb
        have : a = tid := by simpa using hb
        exact (hnot task.status) (this ▸ ha)⟩
    · rw [if_neg hs]; exact hbn s'

theorem invalidate_wf (get : Except Unit Task) (taskId : String) (c : CacheState)
    (hwf : WFb c.tasks c.tasksByStatus) :
    WFb (invalidate_task get taskId c).tasks (invalidate_task get taskId c).tasksByStatus := by
  cases hold : dget c.tasks (pyUpper taskId) with
  | none =>
      obtain ⟨hmid, hnot⟩ := invalidate_mid_wf c (pyUpper taskId) hwf c.tasksByStatus
        (Or.inl ⟨hold, rfl⟩)
      cases get with
      | error e =>
          simp only [invalidate_task, hold]
          exact hmid
      | ok task =>
          obtain ⟨b2, happ, _⟩ := bucketAppend_some c.tasksByStatus task.status (pyUpper taskId)
            (hwf.2.2.1 task.status)
          simp only [invalidate_task, hold, happ]
          exact append_step_wf _ _ _ _ hmid hnot b2 happ
  | some old =>
      obtain ⟨hmid, hnot⟩ := invalidate_mid_wf c (pyUpper taskId) hwf
        (bucketErase c.tasksByStatus old.status (pyUpper taskId))
        (Or.inr ⟨old, hold, rfl⟩)
      have hk1 : ∀ s', (dget (bucketErase c.tasksByStatus old.status (pyUpper taskId)) s').isSome :=
        hmid.2.2.1
      cases get with
      | error e =>
          simp only [invalidate_task, hold]
          exact hmid
      | ok task =>
          obtain ⟨b2, happ, _⟩ := bucketAppend_some
            (bucketErase c.tasksByStatus old.status (pyUpper taskId)) task.status (pyUpper taskId)
            (hk1 task.status)
          simp only [invalidate_task, hold, happ]
          exact append_step_wf _ _ _ _ hmid hnot b2 happ

theorem postRefresh_wf {c : CacheState} (h : PostRefresh c) :
    WFb c.tasks c.tasksByStatus := by
  induction h with
  | refresh hg heq =>
      rename_i c0 c listing
      have := refresh_sync_wf listing c0 hg (by rw [heq])
      rwa [heq] at this
  | invalidate get taskId _ ih => exact invalidate_wf get taskId _ ih

/-- C2 counterexample.  Three states reachable by completed `refresh_sync` /
`invalidate_task` sequences under stores that list each task only under its
own status, yet violating the index invariant:
(a) `invalidate_task` before any refresh (the swallowed `KeyError` leaves the
reloaded task in `_tasks` with no bucket entry);
(b) a scan listing the same id under two statuses (the second `_tasks`
write retroactively falsifies the first bucket);
(c) a scan listing a task twice under its own status followed by an
`invalidate_task` whose reload fails (`.remove` drops only one occurrence,
leaving a dangling bucket id). -/
theorem c2_invariant_counterexample :
    (¬ CacheInv c2StateA)
  ∧ ((refresh_sync c2ListingX CacheState.initial).2 = false ∧
      (∀ s ts, c2ListingX s = .ok ts → ∀ t ∈ ts, t.status = s) ∧ ¬ CacheInv c2StateX)
  ∧ ((refresh_sync c2ListingB CacheState.initial).2 = false ∧
      (∀ s ts, c2ListingB s = .ok ts → ∀ t ∈ ts, t.status = s) ∧ ¬ CacheInv c2StateB) := by
  refine ⟨?_, ⟨by decide, ?_, ?_⟩, ⟨by decide, ?_, ?_⟩⟩
  · intro h
    obtain ⟨s, hs⟩ := h.2 ("A1", c2TaskA) (by decide)
    have hempty : bucketIds c2StateA s = [] := rfl
    rw [hempty] at hs
    cases hs
  · intro s ts h'
    cases s <;> (injection h' with h'; subst h'; decide)
  · intro h
    obtain ⟨t, ht, hts⟩ := h.1 .inbox "X1" (by decide)
    have hx : dget c2StateX.tasks "X1" = some c2TaskX2 := by decide
    rw [hx] at ht
    injection ht with ht
    rw [← ht] at hts
    exact absurd hts (by decide)
  · intro s ts h'
    cases s <;> (injection h' with h'; subst h'; decide)
  · intro h
    obtain ⟨t, ht, _⟩ := h.1 .inbox "B2" (by decide)
    have hx : dget c2StateB.tasks "B2" = none := by decide
    rw [hx] at ht
    cases ht

/-- C2 (amended).  For every cache state reachable by completed
`refresh_sync` and `invalidate_task` operations in which a refresh with a
well-behaved scan completes before any invalidate runs (`PostRefresh`) —
the store listing each task only under its own status and producing no
(upper-cased) id twice across a scan (`GoodListing`) — the index invariant
holds: every id in the bucket for status `s` maps in `_tasks` to a task of
status `s`, and both structures describe the same set of ids. -/
theorem c2_index_invariant_post_refresh (c : CacheState) (h : PostRefresh c) : CacheInv c :=
  WFb_cacheInv (postRefresh_wf h)

theorem c2_index_invariant_witness : CacheInv c2WitnessState := by
  have hg : GoodListing c2WitnessListing := by
    constructor
    · intro s ts h t ht
      injection h with h
      subst h
      cases ht
    · decide
  have heq : refresh_sync c2WitnessListing CacheState.initial = (c2WitnessState, false) := by
    decide
  exact c2_index_invariant_post_refresh _ (PostRefresh.refresh hg heq)

/-! ### C7: the default `list_tasks` view -/

/-- C7.  On every cache state satisfying the index invariant, `list_tasks`
with no status argument returns exactly the cached tasks whose status is
neither `completed` nor `someday`: every returned task has another status,
every cached task with another status is included, and a cached task with
status `completed` appears in the `status=completed` listing. -/
theorem c7_default_list_excludes_completed_someday (c : CacheState) (h : CacheInv c) :
    (∀ t ∈ list_tasks c none, ¬(t.status = .completed ∨ t.status = .someday))
  ∧ (∀ id t, dget c.tasks id = some t → ¬(t.status = .completed ∨ t.status = .someday) →
      t ∈ list_tasks c none)
  ∧ (∀ id t, dget c.tasks id = some t → t.status = .completed →
      t ∈ list_tasks c (some .completed)) := by
  refine ⟨?_, ?_, ?_⟩
  · intro t ht
    rw [list_tasks] at ht
    obtain ⟨s, hsmem, ht⟩ := List.mem_flatMap.mp ht
    obtain ⟨_, hcond⟩ := List.mem_filter.mp hsmem
    obtain ⟨id, hid, hdget⟩ := List.mem_filterMap.mp ht
    obtain ⟨t', ht', hts'⟩ := h.1 s id hid
    rw [hdget] at ht'
    injection ht' with ht'
    rw [ht', hts']
    exact of_decide_eq_true hcond
  · intro id t hdget hstat
    obtain ⟨s, hs⟩ := h.2 (id, t) (dget_mem _ _ _ hdget)
    obtain ⟨t', ht', hts'⟩ := h.1 s id hs
    rw [hdget] at ht'
    injection ht' with ht'
    rw [← ht'] at hts'
    rw [list_tasks]
    refine List.mem_flatMap.mpr ⟨s, List.mem_filter.mpr ⟨TaskStatus.mem_all s, ?_⟩, ?_⟩
    · rw [← hts']
      exact decide_eq_true hstat
    · exact List.mem_filterMap.mpr ⟨id, hs, hdget⟩
  · intro id t hdget hstat
    obtain ⟨s, hs⟩ := h.2 (id, t) (dget_mem _ _ _ hdget)
    obtain ⟨t', ht', hts'⟩ := h.1 s id hs
    rw [hdget] at ht'
    injection ht' with ht'
    rw [← ht'] at hts'
    have : s = .completed := by rw [← hts', hstat]
    subst this
    rw [list_tasks]
    exact List.mem_filterMap.mpr ⟨id, hs, hdget⟩

theorem c7_default_list_witness :
    c7Task1 ∈ list_tasks c7State none ∧ c7Task2 ∈ list_tasks c7State (some .completed) := by
  have hg : GoodListing c7Listing := by
    constructor
    · intro s ts h'
      cases s <;> (injection h' with h'; subst h'; decide)
    · decide
  have heq : refresh_sync c7Listing CacheState.initial = (c7State, false) := by decide
  have hinv : CacheInv c7State :=
    WFb_cacheInv (postRefresh_wf (PostRefresh.refresh hg heq))
  exact ⟨(c7_default_list_excludes_completed_someday c7State hinv).2.1 "T1" c7Task1
            (by decide) (by decide),
         (c7_default_list_excludes_completed_someday c7State hinv).2.2 "T2" c7Task2
            (by decide) (by decide)⟩

theorem rebuildIndex_of_refresh (listing : Listing) (c : CacheState)
    (h : (refresh_sync listing c).2 = false) :
    rebuildIndex listing = some (refresh_sync listing c).1 := by
  rcases hl : refreshLoop listing TaskStatus.all [] initBuckets with ⟨⟨m, b⟩, raised⟩
  cases raised with
  | true => rw [refresh_sync, hl] at h; cases h
  | false => simp [rebuildIndex, refresh_sync, hl]

theorem awaitRefresh_rebuild (store : TaskStore) (c c' : CacheState)
    (h : awaitRefresh store c = .ok c') :
    rebuildIndex store.listing = some c' := by
  rcases hr : refresh_sync store.listing c with ⟨c'', raised⟩
  cases raised with
  | true => simp only [awaitRefresh, hr] at h; cases h
  | false =>
      simp only [awaitRefresh, hr] at h
      injection h with h
      subst h
      have := rebuildIndex_of_refresh store.listing c (by rw [hr])
      rw [hr] at this
      exact this

/-- C3.  Each mutating task handler (`add_task`, `complete_task`,
`start_task`, `defer_task`, `delegate_task`) performs its entity-store
write first and then awaits a full cache refresh before returning, so on
every successful call the cache the handler leaves behind is exactly the
index rebuilt from the store's post-mutation listing — the caller's next
read observes the mutation (read-your-writes). -/
theorem c3_mutating_handlers_refresh_before_return :
    (∀ svc p st r st', handle_add_task svc p st = .ok (r, st') →
        rebuildIndex st'.store.listing = some st'.cache)
  ∧ (∀ svc q st r st', handle_complete_task svc q st = .ok (r, st') →
        rebuildIndex st'.store.listing = some st'.cache)
  ∧ (∀ svc q st r st', handle_start_task svc q st = .ok (r, st') →
        rebuildIndex st'.store.listing = some st'.cache)
  ∧ (∀ svc q st r st', handle_defer_task svc q st = .ok (r, st') →
        rebuildIndex st'.store.listing = some st'.cache)
  ∧ (∀ svc q pq st r st', handle_delegate_task svc q pq st = .ok (r, st') →
        rebuildIndex st'.store.listing = some st'.cache) := by
  refine ⟨?_, ?_, ?_, ?_, ?_⟩
  · intro svc p st r st' h
    simp only [handle_add_task] at h
    cases hdd : addDueDate svc p with
    | error e => simp only [hdd] at h; cases h
    | ok dueDate =>
    simp only [hdd] at h
    cases hpl : addProjectLink svc p with
    | error e => simp only [hpl] at h; cases h
    | ok projectLink =>
    simp only [hpl] at h
    cases hps : parseTaskStatus (p.status.getD "inbox") with
    | none => simp only [hps] at h; cases h
    | some status =>
    simp only [hps] at h
    cases hcr : svc.taskCreate p.title dueDate projectLink status st.store with
    | error e => simp only [hcr] at h; cases h
    | ok cr =>
    simp only [hcr] at h
    cases haa : addAssign svc p cr with
    | error e => simp only [haa] at h; cases h
    | ok tw =>
    simp only [haa] at h
    cases har : awaitRefresh tw.2 st.cache with
    | error e => simp only [har] at h; cases h
    | ok c2 =>
    simp only [har] at h
    injection h with h
    injection h with h1 h2
    subst h2
    exact awaitRefresh_rebuild _ _ _ har
  · intro svc q st r st' h
    simp only [handle_complete_task] at h
    cases hc : svc.taskComplete q st.store with
    | error e => simp only [hc] at h; cases h
    | ok pr =>
    simp only [hc] at h
    cases har : awaitRefresh pr.2 st.cache with
    | error e => simp only [har] at h; cases h
    | ok c2 =>
    simp only [har] at h
    injection h with h
    injection h with h1 h2
    subst h2
    exact awaitRefresh_rebuild _ _ _ har
  · intro svc q st r st' h
    simp only [handle_start_task] at h
    cases hc : svc.taskStart q st.store with
    | error e => simp only [hc] at h; cases h
    | ok pr =>
    simp only [hc] at h
    cases har : awaitRefresh pr.2 st.cache with
    | error e => simp only [har] at h; cases h
    | ok c2 =>
    simp only [har] at h
    injection h with h
    injection h with h1 h2
    subst h2
    exact awaitRefresh_rebuild _ _ _ har
  · intro svc q st r st' h
    simp only [handle_defer_task] at h
    cases hc : svc.taskDefer q st.store with
    | error e => simp only [hc] at h; cases h
    | ok pr =>
    simp only [hc] at h
    cases har : awaitRefresh pr.2 st.cache with
    | error e => simp only [har] at h; cases h
    | ok c2 =>
    simp only [har] at h
    injection h with h
    injection h with h1 h2
    subst h2
    exact awaitRefresh_rebuild _ _ _ har
  · intro svc q pq st r st' h
    simp only [handle_delegate_task] at h
    cases hpf : svc.personFind pq with
    | error e => simp only [hpf] at h; cases h
    | ok name =>
    simp only [hpf] at h
    cases hw : svc.taskWait q ("[[AIO/People/" ++ svc.personSlug name ++ "]]") st.store with
    | error e => simp only [hw] at h; cases h
    | ok pr =>
    simp only [hw] at h
    cases har : awaitRefresh pr.2 st.cache with
    | error e => simp only [har] at h; cases h
    | ok c2 =>
    simp only [har] at h
    injection h with h
    injection h with h1 h2
    subst h2
    exact awaitRefresh_rebuild _ _ _ har

theorem c3_mutating_handlers_witness :
    rebuildIndex c3After.store.listing = some c3After.cache := by
  have h : handle_complete_task c3Svc "C3" { store := c3Store, cache := CacheState.initial }
      = .ok (task_to_dict c3Task, c3After) := rfl
  exact c3_mutating_handlers_refresh_before_return.2.1 c3Svc "C3" _ _ _ h

/-- C8.  Every successful `handle_list_tasks` result — for any combination
of `status` and `project` parameters — carries `count` equal to the length
of its `tasks` array, including after the project filter narrowed the
list. -/
theorem c8_list_tasks_count_matches (c : CacheState) (today : Int) (p : ListTasksParams)
    (r : ListTasksResult) (h : handle_list_tasks c today p = some r) :
    r.count = r.tasks.length := by
  rw [handle_list_tasks] at h
  rcases Option.map_eq_some'.mp h with ⟨ts, _, hr⟩
  subst hr
  simp [List.length_map]

theorem c8_list_tasks_count_witness :
    ({ tasks := [task_to_dict c7Task1], count := 1 } : ListTasksResult).count =
    ({ tasks := [task_to_dict c7Task1], count := 1 } : ListTasksResult).tasks.length :=
  c8_list_tasks_count_matches c7State 0 { status := some "next" } _ (by decide)

/-- C9.  When the `date` parameter of `get_dashboard` fails to parse
(`parse_date` raises `InvalidDateError`), the handler returns a success
result generated for today — no `INVALID_DATE` error — and the response is
identical to the one produced with the parameter omitted. -/
theorem c9_dashboard_invalid_date_falls_back (deps : DashboardDeps) (today : Int)
    (ds : String) (h : deps.parse_date ds = .error ()) :
    handle_get_dashboard deps today (some ds) =
      { content := deps.generate today, date := today } ∧
    handle_get_dashboard deps today (some ds) = handle_get_dashboard deps today none := by
  by_cases hds : ds = ""
  · subst hds
    exact ⟨rfl, rfl⟩
  · constructor <;> simp [handle_get_dashboard, hds, h]

theorem c9_dashboard_witness :
    handle_get_dashboard c9Deps 20000 (some "not-a-date") =
      { content := "# Dashboard", date := 20000 } ∧
    handle_get_dashboard c9Deps 20000 (some "not-a-date") =
      handle_get_dashboard c9Deps 20000 none :=
  c9_dashboard_invalid_date_falls_back c9Deps 20000 "not-a-date" rfl

/-- C4 counterexample.  At `INVALID_DATE` (−32004), inside the claim's
"−32003..−32010 → 404" range, the transport returns 500; conversely at
`TASK_NOT_FOUND` (−32001), outside that range (hence 500 per the claim),
it returns 404. -/
theorem c4_http_status_counterexample :
    (rpc_error_to_response
        { id := .null, result := none,
          error := some { code := ErrorCode.INVALID_DATE, message := "bad date" } }
      : WebResponse Unit).status = 500 ∧
    claimedStatusC4 ErrorCode.INVALID_DATE = 404 ∧
    (rpc_error_to_response
        { id := .null, result := none,
          error := some { code := ErrorCode.TASK_NOT_FOUND, message := "no task" } }
      : WebResponse Unit).status = 404 ∧
    claimedStatusC4 ErrorCode.TASK_NOT_FOUND = 500 := by
  refine ⟨by decide, by decide, by decide, by decide⟩

/-- C4 (amended).  For every error response, the HTTP transport's status is
given by `amendedStatusC4`: 404 for method-not-found and for the four
mapped not-found codes (task −32001, project −32006, person −32007,
context-pack −32008), 409 for ambiguous-match, 400 for
invalid-request/invalid-params, and 500 for anything else — including the
remaining domain codes −32003..−32005 and −32009..−32010; the body is the
`ok: false` envelope naming the code. -/
theorem c4_http_status_amended (ρ : Type) (rid : RpcId) (res : Option ρ) (err : JsonRpcError) :
    (rpc_error_to_response { id := rid, result := res, error := some err }).status =
      amendedStatusC4 err.code ∧
    (rpc_error_to_response { id := rid, result := res, error := some err }).body =
      HttpBody.failure (errorCodeName err.code) err.message := by
  constructor
  · show rpc_error_to_status err.code = amendedStatusC4 err.code
    generalize err.code = code
    rw [rpc_error_to_status, amendedStatusC4]
    rw [ErrorCode.METHOD_NOT_FOUND, ErrorCode.INVALID_PARAMS, ErrorCode.INVALID_REQUEST,
      ErrorCode.TASK_NOT_FOUND, ErrorCode.PROJECT_NOT_FOUND, ErrorCode.PERSON_NOT_FOUND,
      ErrorCode.CONTEXT_PACK_NOT_FOUND, ErrorCode.AMBIGUOUS_MATCH]
    split_ifs <;> first | rfl | omega
  · rfl

/-- C6.  For every request whose method is not a key of the `HANDLERS`
table, `dispatch_request` answers with error code −32601
(`METHOD_NOT_FOUND`) echoing the request id, and invokes no handler from
the table. -/
theorem c6_unknown_method_not_dispatched (ρ : Type) (run : HandlerTag → Except HandlerFailure ρ)
    (method : String) (rid : RpcId) (h : dget HANDLERS method = none) :
    (dispatch_request run method rid).1.error =
      some { code := -32601, message := "Method not found: " ++ method } ∧
    (dispatch_request run method rid).1.id = rid ∧
    (dispatch_request run method rid).1.result = none ∧
    (dispatch_request run method rid).2 = none := by
  simp [dispatch_request, h, errorResponse, ErrorCode.METHOD_NOT_FOUND]

theorem c6_unknown_method_witness :
    (dispatch_request (fun _ => Except.ok (0 : Nat)) "frobnicate" (.num 1)).1.error =
      some { code := -32601, message := "Method not found: frobnicate" } ∧
    (dispatch_request (fun _ => Except.ok (0 : Nat)) "frobnicate" (.num 1)).2 = none := by
  obtain ⟨h1, _, _, h4⟩ := c6_unknown_method_not_dispatched Nat (fun _ => Except.ok 0)
    "frobnicate" (.num 1) (by decide)
  exact ⟨h1, h4⟩

/-- C5.  A frame whose declared 4-byte big-endian length exceeds the 10 MiB
maximum is rejected by `_read_message` immediately after the length prefix
is read — the result carries only the declared length; no body byte is
consumed — and the connection loop writes no response for it and tears the
connection down. -/
theorem c5_oversized_frame_rejected {ρ : Type} (process : List Nat → ρ) (input : List Nat)
    (h4 : LENGTH_PREFIX_SIZE ≤ input.length)
    (hbig : MAX_MESSAGE_SIZE < bytesToNat (input.take LENGTH_PREFIX_SIZE)) :
    read_message input = .tooLarge (bytesToNat (input.take LENGTH_PREFIX_SIZE)) ∧
    handle_client process input = ([], true) := by
  have hlen : ¬ (input.take LENGTH_PREFIX_SIZE).length < LENGTH_PREFIX_SIZE := by
    rw [List.length_take]
    omega
  have hread : read_message input = .tooLarge (bytesToNat (input.take LENGTH_PREFIX_SIZE)) := by
    rw [read_message, if_neg hlen, if_pos hbig]
  refine ⟨hread, ?_⟩
  rw [handle_client]
  split
  · rename_i heq
    rw [hread] at heq
    cases heq
  · rfl
  · rename_i body rest heq
    rw [hread] at heq
    cases heq

theorem c5_oversized_frame_witness :
    read_message c5Input = .tooLarge 10485761 ∧
    handle_client (fun _ => (0 : Nat)) c5Input = ([], true) := by
  obtain ⟨h1, h2⟩ :=
    c5_oversized_frame_rejected (fun _ => (0 : Nat)) c5Input (by decide) (by decide)
  exact ⟨by rw [h1]; decide, h2⟩

/-- C10.  The socket size check is strict: `_read_message` raises only for
declared lengths strictly greater than `MAX_MESSAGE_SIZE` (so for any frame
declaring at most the maximum the size-error branch is unreachable), and a
frame declaring exactly the maximum, with its body available, is accepted
and read in full. -/
theorem c10_size_check_strict (input : List Nat) :
    (∀ n, read_message input = .tooLarge n → MAX_MESSAGE_SIZE < n)
  ∧ (bytesToNat (input.take LENGTH_PREFIX_SIZE) ≤ MAX_MESSAGE_SIZE →
      ∀ n, ¬ read_message input = .tooLarge n)
  ∧ ((input.take LENGTH_PREFIX_SIZE).length = LENGTH_PREFIX_SIZE →
      bytesToNat (input.take LENGTH_PREFIX_SIZE) = MAX_MESSAGE_SIZE →
      MAX_MESSAGE_SIZE ≤ (input.drop LENGTH_PREFIX_SIZE).length →
      read_message input =
        .msg ((input.drop LENGTH_PREFIX_SIZE).take MAX_MESSAGE_SIZE)
             ((input.drop LENGTH_PREFIX_SIZE).drop MAX_MESSAGE_SIZE)) := by
  refine ⟨?_, ?_, ?_⟩
  · intro n h
    rw [read_message] at h
    split_ifs at h with h1 h2 h3
    injection h with h
    omega
  · intro hle n h
    rw [read_message] at h
    split_ifs at h with h1 h2 h3
    injection h with h
    omega
  · intro hpfx hmax hbody
    have h1 : ¬ (input.take LENGTH_PREFIX_SIZE).length < LENGTH_PREFIX_SIZE := by omega
    have h2 : ¬ bytesToNat (input.take LENGTH_PREFIX_SIZE) > MAX_MESSAGE_SIZE := by omega
    have h3 : ¬ ((input.drop LENGTH_PREFIX_SIZE).take
        (bytesToNat (input.take LENGTH_PREFIX_SIZE))).length <
        bytesToNat (input.take LENGTH_PREFIX_SIZE) := by
      rw [hmax, List.length_take]
      omega
    rw [read_message, if_neg h1, if_neg h2, if_neg h3, hmax]

theorem c10_size_check_witness :
    read_message c10Input =
      .msg ((c10Input.drop LENGTH_PREFIX_SIZE).take MAX_MESSAGE_SIZE)
           ((c10Input.drop LENGTH_PREFIX_SIZE).drop MAX_MESSAGE_SIZE) := by
  have htake : c10Input.take LENGTH_PREFIX_SIZE = [0, 160, 0, 0] := rfl
  have hdrop : c10Input.drop LENGTH_PREFIX_SIZE = List.replicate MAX_MESSAGE_SIZE 0 := rfl
  apply (c10_size_check_strict c10Input).2.2
  · rw [htake]; rfl
  · rw [htake]; decide
  · rw [hdrop, List.length_replicate]

end Aio
